import Mathlib

/-!
Verification of the predicate-based string filtering utility
(`src/filter_strings_starting_with_e.py`).

Embedding conventions:
* A Python list of string-or-`None` values is `List (Option String)`;
  `none` models `None` and `some s` models the string `s`.
* Python truthiness of a string (`if string and ...`) is `s ≠ ""` on the
  `some` case and `False` on `none`.
* Fallible Python computation is `Except PyErr _`: `ValueError` raised by
  the single-character validation and `IndexError` raised by out-of-bounds
  indexing (`s[0]` / `s[-1]` on an empty string) become `.error _`.
* A Python predicate (which may raise) is `String → Except PyErr Bool`.
* Python `s[0]` is `pyGet s 0` and `s[-1]` is `pyGetLast s`; both are
  `Option Char`, `none` modelling the `IndexError` case.
* Python `str.upper()` is `pyUpper` (simple per-character uppercase
  normalization; the spec restricts case folding to ASCII).
-/

deriving instance DecidableEq for Except

namespace PyModel

/-- Errors a call can raise: `ValueError` (with its message) from argument
validation, `IndexError` from indexing past a string's bounds. -/
inductive PyErr where
  | valueError (msg : String)
  | indexError
deriving DecidableEq

/-- Python `s[i]` for a non-negative index: the `i`-th character, or an
out-of-bounds failure. -/
def pyGet (s : String) (i : Nat) : Option Char :=
  s.data.get? i

/-- Python `s[-1]`: the last character, or an out-of-bounds failure. -/
def pyGetLast (s : String) : Option Char :=
  s.data.getLast?

/-- Python `str.upper()`: per-character uppercase normalization (the spec
restricts case folding to ASCII, which `Char.toUpper` implements). -/
def pyUpper (s : String) : String :=
  ⟨s.data.map Char.toUpper⟩

/-- An optional bound constrains a value exactly when it is present; this
instance makes that bounded quantification decidable, so it can appear in
executable characterizations. -/
instance optionBallDecidable {α : Type} (p : α → Prop) [DecidablePred p] :
    (o : Option α) → Decidable (∀ a ∈ o, p a)
  | none => isTrue (by simp)
  | some x => decidable_of_iff (p x) (by simp)

namespace StringFilter

/-- `StringFilter.filter_by_predicate` (lines 10-26): scans the list in
order; an element is appended exactly when it is truthy (not `None`, not
`""`) and the predicate returns true on it; the predicate is only called
on truthy elements, and an exception it raises propagates. -/
def filter_by_predicate :
    List (Option String) → (String → Except PyErr Bool) → Except PyErr (List String)
  | [], _ => .ok []
  | none :: rest, p => filter_by_predicate rest p
  | some s :: rest, p =>
    if s = "" then
      filter_by_predicate rest p
    else
      match p s with
      | .error e => .error e
      | .ok b =>
        match filter_by_predicate rest p with
        | .error e => .error e
        | .ok r => .ok (if b then s :: r else r)

/-- The inner closure `starts_with_char` of `filter_by_starting_character`
(lines 47-51): compares `s[0]` with the stored character, verbatim when
case-sensitive, uppercasing both sides otherwise. -/
def starts_with_char (character : String) (case_sensitive : Bool)
    (s : String) : Except PyErr Bool :=
  match pyGet s 0 with
  | none => .error .indexError
  | some c =>
    if case_sensitive then
      .ok (String.singleton c == character)
    else
      .ok (pyUpper (String.singleton c) == pyUpper character)

/-- `StringFilter.filter_by_starting_character` (lines 28-53): validates
that the character argument has length exactly 1 (raising `ValueError`
otherwise), then filters with `starts_with_char`. -/
def filter_by_starting_character (string_list : List (Option String))
    (character : String) (case_sensitive : Bool) : Except PyErr (List String) :=
  if character.length ≠ 1 then
    .error (.valueError "Character must be a single character string")
  else
    filter_by_predicate string_list (starts_with_char character case_sensitive)

/-- The inner closure `ends_with_char` of `filter_by_ending_character`
(lines 61-65): compares `s[-1]` with the stored character. -/
def ends_with_char (character : String) (case_sensitive : Bool)
    (s : String) : Except PyErr Bool :=
  match pyGetLast s with
  | none => .error .indexError
  | some c =>
    if case_sensitive then
      .ok (String.singleton c == character)
    else
      .ok (pyUpper (String.singleton c) == pyUpper character)

/-- `StringFilter.filter_by_ending_character` (lines 55-67). -/
def filter_by_ending_character (string_list : List (Option String))
    (character : String) (case_sensitive : Bool) : Except PyErr (List String) :=
  if character.length ≠ 1 then
    .error (.valueError "Character must be a single character string")
  else
    filter_by_predicate string_list (ends_with_char character case_sensitive)

/-- The inner closure `length_predicate` of `filter_by_length` (lines
72-75): each supplied bound is checked inclusively, an omitted (`None`)
bound is vacuously satisfied. Bounds are `Int` since Python ints are
unbounded and possibly negative. -/
def length_predicate (min_length max_length : Option Int)
    (s : String) : Except PyErr Bool :=
  .ok ((match min_length with
        | none => true
        | some m => decide (m ≤ (s.length : Int))) &&
       (match max_length with
        | none => true
        | some m => decide ((s.length : Int) ≤ m)))

/-- `StringFilter.filter_by_length` (lines 69-77). -/
def filter_by_length (string_list : List (Option String))
    (min_length max_length : Option Int) : Except PyErr (List String) :=
  filter_by_predicate string_list (length_predicate min_length max_length)

/-- `StringFilter.combine_predicates_and` (lines 90-93):
`lambda x: pred1(x) and pred2(x)` — short-circuiting: `pred2` is evaluated
only when `pred1` returned `True`. -/
def combine_predicates_and (pred1 pred2 : String → Except PyErr Bool) :
    String → Except PyErr Bool :=
  fun x =>
    match pred1 x with
    | .error e => .error e
    | .ok b => if b then pred2 x else .ok false

/-- `StringFilter.combine_predicates_or` (lines 95-98):
`lambda x: pred1(x) or pred2(x)` — short-circuiting: `pred2` is evaluated
only when `pred1` returned `False`. -/
def combine_predicates_or (pred1 pred2 : String → Except PyErr Bool) :
    String → Except PyErr Bool :=
  fun x =>
    match pred1 x with
    | .error e => .error e
    | .ok b => if b then .ok true else pred2 x

/-- `StringFilter.negate_predicate` (lines 100-103):
`lambda x: not predicate(x)`. -/
def negate_predicate (predicate : String → Except PyErr Bool) :
    String → Except PyErr Bool :=
  fun x =>
    match predicate x with
    | .error e => .error e
    | .ok b => .ok (!b)

end StringFilter

/-- Top-level predicate `starts_with_e` (lines 110-112):
`text[0].upper() == 'E' if text else False`. -/
def starts_with_e (text : String) : Except PyErr Bool :=
  if text ≠ "" then
    match pyGet text 0 with
    | none => .error .indexError
    | some c => .ok (pyUpper (String.singleton c) == "E")
  else
    .ok false

/-- Legacy function `filter_strings_starting_with_e` (lines 152-163). -/
def filter_strings_starting_with_e (string_list : List (Option String)) :
    Except PyErr (List String) :=
  StringFilter.filter_by_predicate string_list starts_with_e

end PyModel

namespace PyModel

/-- Helper: a string other than `""` has nonempty character data. -/
theorem data_ne_nil {s : String} (h : s ≠ "") : s.data ≠ [] :=
  fun hd => h (String.ext (by rw [hd]))

namespace StringFilter

/-- Helper: every string in a successful filter result is non-empty and
satisfied the predicate. -/
theorem fbp_ok_mem (S : List (Option String)) (P : String → Except PyErr Bool) :
    ∀ R, filter_by_predicate S P = .ok R → ∀ s ∈ R, s ≠ "" ∧ P s = .ok true := by
  induction S with
  | nil =>
    intro R h s hs
    simp only [filter_by_predicate, Except.ok.injEq] at h
    subst h
    simp at hs
  | cons o rest ih =>
    intro R h s hs
    match o with
    | none => exact ih R (by simpa [filter_by_predicate] using h) s hs
    | some a =>
      by_cases ha : a = ""
      · exact ih R (by simpa [filter_by_predicate, ha] using h) s hs
      · simp only [filter_by_predicate, if_neg ha] at h
        cases hp : P a with
        | error e => rw [hp] at h; cases h
        | ok b =>
          rw [hp] at h
          cases hr : filter_by_predicate rest P with
          | error e => rw [hr] at h; cases h
          | ok r =>
            rw [hr] at h
            simp only [Except.ok.injEq] at h
            cases b with
            | false =>
              subst h
              exact ih r hr s hs
            | true =>
              simp only [if_pos] at h
              subst h
              rcases List.mem_cons.mp hs with rfl | hs2
              · exact ⟨ha, hp⟩
              · exact ih r hr s hs2

/-- Helper: the filter result only depends on the predicate's behaviour on
non-empty strings (the predicate is never consulted on `None` or `""`). -/
theorem fbp_congr (S : List (Option String)) (P Q : String → Except PyErr Bool)
    (h : ∀ s, s ≠ "" → P s = Q s) :
    filter_by_predicate S P = filter_by_predicate S Q := by
  induction S with
  | nil => rfl
  | cons o rest ih =>
    match o with
    | none => simpa [filter_by_predicate] using ih
    | some a =>
      by_cases ha : a = ""
      · simpa [filter_by_predicate, ha] using ih
      · simp only [filter_by_predicate, if_neg ha, h a ha, ih]

/-- Helper: a successful filter result, viewed back as optional strings, is
a subsequence of the input list. -/
theorem fbp_sublist (S : List (Option String)) (P : String → Except PyErr Bool) :
    ∀ R, filter_by_predicate S P = .ok R → (R.map some).Sublist S := by
  induction S with
  | nil =>
    intro R h
    simp only [filter_by_predicate, Except.ok.injEq] at h
    subst h
    simp
  | cons o rest ih =>
    intro R h
    match o with
    | none => exact (ih R (by simpa [filter_by_predicate] using h)).cons none
    | some a =>
      by_cases ha : a = ""
      · exact (ih R (by simpa [filter_by_predicate, ha] using h)).cons (some a)
      · simp only [filter_by_predicate, if_neg ha] at h
        cases hp : P a with
        | error e => rw [hp] at h; cases h
        | ok b =>
          rw [hp] at h
          cases hr : filter_by_predicate rest P with
          | error e => rw [hr] at h; cases h
          | ok r =>
            rw [hr] at h
            simp only [Except.ok.injEq] at h
            cases b with
            | false =>
              subst h
              exact (ih r hr).cons (some a)
            | true =>
              simp only [if_pos] at h
              subst h
              simpa using (ih r hr).cons₂ (some a)

/-- Helper: re-filtering a list of strings each of which is non-empty and
accepted by the predicate returns that list unchanged. -/
theorem fbp_of_mem (P : String → Except PyErr Bool) :
    ∀ R : List String, (∀ s ∈ R, s ≠ "" ∧ P s = .ok true) →
      filter_by_predicate (R.map some) P = .ok R := by
  intro R
  induction R with
  | nil => intro _; rfl
  | cons a r ih =>
    intro h
    obtain ⟨ha, hp⟩ := h a (List.mem_cons_self a r)
    have hr := ih fun s hs => h s (List.mem_cons_of_mem a hs)
    simp [List.map_cons, filter_by_predicate, if_neg ha, hp, hr]

/-- Helper: if the predicate succeeds on every non-empty string, the filter
call succeeds. -/
theorem fbp_total (S : List (Option String)) (P : String → Except PyErr Bool)
    (h : ∀ s, s ≠ "" → ∃ b, P s = .ok b) :
    ∃ r, filter_by_predicate S P = .ok r := by
  induction S with
  | nil => exact ⟨[], rfl⟩
  | cons o rest ih =>
    obtain ⟨r, hr⟩ := ih
    match o with
    | none => exact ⟨r, by simpa [filter_by_predicate] using hr⟩
    | some a =>
      by_cases ha : a = ""
      · exact ⟨r, by simpa [filter_by_predicate, ha] using hr⟩
      · obtain ⟨b, hb⟩ := h a ha
        refine ⟨if b then a :: r else r, ?_⟩
        simp only [filter_by_predicate, if_neg ha, hb, hr]

/-- Helper: when the predicate computes, on every non-empty string, the
acceptance encoded by a per-element selection function, the filter equals
`filterMap` of that selection function. -/
theorem fbp_eq_filterMap (S : List (Option String)) (P : String → Except PyErr Bool)
    (g : Option String → Option String)
    (hnone : g none = none) (hemp : g (some "") = none)
    (hs : ∀ s, s ≠ "" →
      (P s = .ok true ∧ g (some s) = some s) ∨ (P s = .ok false ∧ g (some s) = none)) :
    filter_by_predicate S P = .ok (S.filterMap g) := by
  induction S with
  | nil => rfl
  | cons o rest ih =>
    match o with
    | none => simpa [filter_by_predicate, List.filterMap_cons, hnone] using ih
    | some a =>
      by_cases ha : a = ""
      · subst ha
        simpa [filter_by_predicate, List.filterMap_cons, hemp] using ih
      · rcases hs a ha with ⟨hp, hg⟩ | ⟨hp, hg⟩ <;>
          simp [filter_by_predicate, if_neg ha, hp, ih, List.filterMap_cons, hg]

end StringFilter

end PyModel

namespace PyModel

/-- Helper: a non-empty string's `s[0]` is its head character. -/
theorem pyGet_zero_of_ne {s : String} (h : s ≠ "") :
    ∃ ch t, s.data = ch :: t ∧ pyGet s 0 = some ch := by
  obtain ⟨ch, t, hdt⟩ := List.exists_cons_of_ne_nil (data_ne_nil h)
  exact ⟨ch, t, hdt, by simp [pyGet, hdt]⟩

/-- Helper: a non-empty string's `s[-1]` is defined. -/
theorem pyGetLast_of_ne {s : String} (h : s ≠ "") :
    ∃ ch, pyGetLast s = some ch := by
  have hd := data_ne_nil h
  cases hg : s.data.getLast? with
  | none => exact absurd (List.getLast?_eq_none_iff.mp hg) hd
  | some ch => exact ⟨ch, by simp [pyGetLast, hg]⟩

namespace StringFilter

/-- Helper: the starting-character predicate never raises on a non-empty
string. -/
theorem starts_with_char_total (c : String) (cs : Bool) :
    ∀ s, s ≠ "" → ∃ b, starts_with_char c cs s = .ok b := by
  intro s h
  obtain ⟨ch, t, hdt, hg⟩ := pyGet_zero_of_ne h
  cases cs with
  | true => exact ⟨String.singleton ch == c, by simp [starts_with_char, hg]⟩
  | false => exact ⟨pyUpper (String.singleton ch) == pyUpper c, by simp [starts_with_char, hg]⟩

/-- Helper: the ending-character predicate never raises on a non-empty
string. -/
theorem ends_with_char_total (c : String) (cs : Bool) :
    ∀ s, s ≠ "" → ∃ b, ends_with_char c cs s = .ok b := by
  intro s h
  obtain ⟨ch, hg⟩ := pyGetLast_of_ne h
  cases cs with
  | true => exact ⟨String.singleton ch == c, by simp [ends_with_char, hg]⟩
  | false => exact ⟨pyUpper (String.singleton ch) == pyUpper c, by simp [ends_with_char, hg]⟩

/-- Helper: the length predicate computes exactly the conjunction of the
supplied inclusive bounds. -/
theorem length_predicate_eq (mn mx : Option Int) (s : String) :
    length_predicate mn mx s =
      .ok (decide ((∀ m ∈ mn, m ≤ (s.length : Int)) ∧ (∀ m ∈ mx, (s.length : Int) ≤ m))) := by
  cases mn <;> cases mx <;> simp [length_predicate]

end StringFilter

end PyModel

namespace PyModel

/-- Helper: on non-empty strings the legacy predicate `starts_with_e`
coincides with the case-insensitive starting-character predicate for
target `"E"`. -/
theorem starts_with_e_eq (s : String) (h : s ≠ "") :
    starts_with_e s = StringFilter.starts_with_char "E" false s := by
  have hu : pyUpper "E" = "E" := by decide
  simp only [starts_with_e, if_pos h, StringFilter.starts_with_char, hu]
  cases pyGet s 0 <;> simp

/-- Claim C1: for every list `S` of optional strings and every predicate
`P`, a successful `filter_by_predicate S P` returns a subsequence of `S`:
its elements occur in `S` in the same relative order, with no reordering
and no deduplication. -/
theorem claim_C1 (S : List (Option String)) (P : String → Except PyErr Bool)
    (R : List String) (h : StringFilter.filter_by_predicate S P = .ok R) :
    (R.map some).Sublist S :=
  StringFilter.fbp_sublist S P R h

theorem claim_C1_witness :
    StringFilter.filter_by_predicate [some "Exxon", none, some "", some "Mobil"] starts_with_e
        = .ok ["Exxon"] ∧
    ((["Exxon"].map some).Sublist [some "Exxon", none, some "", some "Mobil"]) :=
  ⟨by decide, claim_C1 [some "Exxon", none, some "", some "Mobil"] starts_with_e ["Exxon"] (by decide)⟩

/-- Claim C2: absent (`None`) and empty-string elements never appear in a
filter result (first conjunct: `""` is never in a successful result; a
`None` cannot appear since results hold plain strings); the predicate is
never invoked on such elements (second conjunct: the result depends only
on the predicate's values at non-empty strings; its behaviour at `None`
is excluded by typing); and filtering
`["Valid", None, "", "Another", ""]` for strings starting with `'V'`
yields `["Valid"]` (third conjunct). -/
theorem claim_C2 :
    (∀ (S : List (Option String)) (P : String → Except PyErr Bool) (R : List String),
        StringFilter.filter_by_predicate S P = .ok R → "" ∉ R) ∧
    (∀ (S : List (Option String)) (P Q : String → Except PyErr Bool),
        (∀ s, s ≠ "" → P s = Q s) →
        StringFilter.filter_by_predicate S P = StringFilter.filter_by_predicate S Q) ∧
    StringFilter.filter_by_starting_character
        [some "Valid", none, some "", some "Another", some ""] "V" false = .ok ["Valid"] := by
  refine ⟨?_, ?_, by decide⟩
  · intro S P R h hmem
    exact (StringFilter.fbp_ok_mem S P R h "" hmem).1 rfl
  · exact fun S P Q h => StringFilter.fbp_congr S P Q h

theorem claim_C2_witness :
    ("" ∉ (["Valid"] : List String)) ∧
    StringFilter.filter_by_predicate [some "x", none, some ""] (fun _ => .ok true)
      = StringFilter.filter_by_predicate [some "x", none, some ""]
          (fun s => .ok (decide (s ≠ ""))) :=
  ⟨claim_C2.1 [some "Valid", none, some "", some "Another", some ""]
      (StringFilter.starts_with_char "V" false) ["Valid"] (by decide),
   claim_C2.2.1 [some "x", none, some ""] (fun _ => .ok true)
      (fun s => .ok (decide (s ≠ ""))) (fun s hs => by simp [hs])⟩

/-- Claim C3: calling the starting- or ending-character filter with a
character argument whose length is 0 or at least 2 raises the
`ValueError` and performs no filtering: the same error is produced for
every input list and case flag, so no element is examined and no result
list is produced. -/
theorem claim_C3 (character : String) (h : character.length ≠ 1) :
    ∀ (l : List (Option String)) (cs : Bool),
      StringFilter.filter_by_starting_character l character cs
          = .error (.valueError "Character must be a single character string") ∧
      StringFilter.filter_by_ending_character l character cs
          = .error (.valueError "Character must be a single character string") := by
  intro l cs
  exact ⟨by simp [StringFilter.filter_by_starting_character, if_pos h],
         by simp [StringFilter.filter_by_ending_character, if_pos h]⟩

theorem claim_C3_witness :
    StringFilter.filter_by_starting_character [some "Exxon"] "AB" false
        = .error (.valueError "Character must be a single character string") ∧
    StringFilter.filter_by_ending_character [some "Exxon"] "" true
        = .error (.valueError "Character must be a single character string") :=
  ⟨(claim_C3 "AB" (by decide) [some "Exxon"] false).1,
   (claim_C3 "" (by decide) [some "Exxon"] true).2⟩

/-- Claim C4: for all predicates `P` and `Q` and every string `x` on which
they return boolean verdicts `a` and `b`, the AND combinator returns
`a && b`, the OR combinator returns `a || b`, and the NOT combinator
returns `!a`. -/
theorem claim_C4 :
    (∀ (P Q : String → Except PyErr Bool) (x : String) (a b : Bool),
        P x = .ok a → Q x = .ok b →
        StringFilter.combine_predicates_and P Q x = .ok (a && b) ∧
        StringFilter.combine_predicates_or P Q x = .ok (a || b)) ∧
    (∀ (P : String → Except PyErr Bool) (x : String) (a : Bool),
        P x = .ok a → StringFilter.negate_predicate P x = .ok (!a)) := by
  constructor
  · intro P Q x a b hp hq
    cases a <;>
      simp [StringFilter.combine_predicates_and, StringFilter.combine_predicates_or, hp, hq]
  · intro P x a hp
    simp [StringFilter.negate_predicate, hp]

theorem claim_C4_witness :
    (StringFilter.combine_predicates_and (fun _ => .ok true) (fun _ => .ok false) "x"
        = .ok (true && false) ∧
     StringFilter.combine_predicates_or (fun _ => .ok true) (fun _ => .ok false) "x"
        = .ok (true || false)) ∧
    StringFilter.negate_predicate (fun _ => .ok true) "x" = .ok (!true) :=
  ⟨claim_C4.1 (fun _ => .ok true) (fun _ => .ok false) "x" true false rfl rfl,
   claim_C4.2 (fun _ => .ok true) "x" true rfl⟩

/-- Claim C5: filtering is idempotent — re-filtering a successful result
(injected back into the optional-string input type) with the same
predicate returns the result unchanged. -/
theorem claim_C5 (S : List (Option String)) (P : String → Except PyErr Bool)
    (R : List String) (h : StringFilter.filter_by_predicate S P = .ok R) :
    StringFilter.filter_by_predicate (R.map some) P = .ok R :=
  StringFilter.fbp_of_mem P R (StringFilter.fbp_ok_mem S P R h)

theorem claim_C5_witness :
    StringFilter.filter_by_predicate (["Eagle"].map some) starts_with_e = .ok ["Eagle"] :=
  claim_C5 [some "Eagle", some "bird", none, some ""] starts_with_e ["Eagle"] (by decide)

end PyModel

namespace PyModel

/-- Claim C6: the starting-character filter compares the target character
with each candidate's first character — verbatim when case-sensitive
(first conjunct), uppercasing both sides when case-insensitive (second
conjunct) — and the three concrete scenarios from the spec hold (remaining
conjuncts). -/
theorem claim_C6 :
    (∀ (l : List (Option String)) (c : String), c.length = 1 →
        StringFilter.filter_by_starting_character l c true =
          .ok (l.filterMap fun o =>
            match o with
            | none => none
            | some s =>
              match s.data with
              | [] => none
              | ch :: _ => if String.singleton ch = c then some s else none)) ∧
    (∀ (l : List (Option String)) (c : String), c.length = 1 →
        StringFilter.filter_by_starting_character l c false =
          .ok (l.filterMap fun o =>
            match o with
            | none => none
            | some s =>
              match s.data with
              | [] => none
              | ch :: _ =>
                if pyUpper (String.singleton ch) = pyUpper c then some s else none)) ∧
    StringFilter.filter_by_starting_character
        [some "Exxon", some "Mobil", some "Bangalore", some "Bdd", some "Encapsulation"]
        "E" false = .ok ["Exxon", "Encapsulation"] ∧
    StringFilter.filter_by_starting_character
        [some "apple", some "Apple", some "APPLE", some "banana", some "Banana"]
        "a" true = .ok ["apple"] ∧
    StringFilter.filter_by_starting_character
        [some "apple", some "Apple", some "APPLE", some "banana", some "Banana"]
        "a" false = .ok ["apple", "Apple", "APPLE"] := by
  refine ⟨?_, ?_, by decide, by decide, by decide⟩
  · intro l c hc
    simp only [StringFilter.filter_by_starting_character, if_neg (not_not_intro hc)]
    refine StringFilter.fbp_eq_filterMap l _ _ rfl rfl ?_
    intro s hs
    obtain ⟨ch, t, hdt, hg⟩ := pyGet_zero_of_ne hs
    by_cases hch : String.singleton ch = c
    · exact Or.inl ⟨by simp [StringFilter.starts_with_char, hg, hch],
        by simp [hdt, hch]⟩
    · exact Or.inr ⟨by simp [StringFilter.starts_with_char, hg, hch],
        by simp [hdt, hch]⟩
  · intro l c hc
    simp only [StringFilter.filter_by_starting_character, if_neg (not_not_intro hc)]
    refine StringFilter.fbp_eq_filterMap l _ _ rfl rfl ?_
    intro s hs
    obtain ⟨ch, t, hdt, hg⟩ := pyGet_zero_of_ne hs
    by_cases hch : pyUpper (String.singleton ch) = pyUpper c
    · exact Or.inl ⟨by simp [StringFilter.starts_with_char, hg, hch],
        by simp [hdt, hch]⟩
    · exact Or.inr ⟨by simp [StringFilter.starts_with_char, hg, hch],
        by simp [hdt, hch]⟩

theorem claim_C6_witness :
    StringFilter.filter_by_starting_character [some "apple", some "Banana"] "B" true =
      .ok ([some "apple", some "Banana"].filterMap fun o =>
        match o with
        | none => none
        | some s =>
          match s.data with
          | [] => none
          | ch :: _ => if String.singleton ch = "B" then some s else none) ∧
    StringFilter.filter_by_starting_character [some "apple", some "Banana"] "B" false =
      .ok ([some "apple", some "Banana"].filterMap fun o =>
        match o with
        | none => none
        | some s =>
          match s.data with
          | [] => none
          | ch :: _ =>
            if pyUpper (String.singleton ch) = pyUpper "B" then some s else none) :=
  ⟨claim_C6.1 [some "apple", some "Banana"] "B" (by decide),
   claim_C6.2.1 [some "apple", some "Banana"] "B" (by decide)⟩

/-- Claim C7: the length filter keeps a non-empty, non-absent string
exactly when every supplied bound holds inclusively, an omitted (`None`)
bound imposing no constraint (first conjunct); and on the spec's list
with maximum length 5 the result is `["Apple"]` (second conjunct). -/
theorem claim_C7 :
    (∀ (l : List (Option String)) (mn mx : Option Int),
        StringFilter.filter_by_length l mn mx =
          .ok (l.filterMap fun o => o.bind fun s =>
            if s ≠ "" ∧ (∀ m ∈ mn, m ≤ (s.length : Int)) ∧ (∀ m ∈ mx, (s.length : Int) ≤ m)
            then some s else none)) ∧
    StringFilter.filter_by_length
        [some "Apple", some "Banana", some "Cherry", some "Avocado",
         some "Blueberry", some "Citrus"] none (some 5) = .ok ["Apple"] := by
  refine ⟨?_, by decide⟩
  intro l mn mx
  refine StringFilter.fbp_eq_filterMap l _ _ rfl (by simp) ?_
  intro s hs
  by_cases hcond : (∀ m ∈ mn, m ≤ (s.length : Int)) ∧ (∀ m ∈ mx, (s.length : Int) ≤ m)
  · refine Or.inl ⟨?_, ?_⟩
    · rw [StringFilter.length_predicate_eq, decide_eq_true hcond]
    · simp only [Option.some_bind]
      exact if_pos ⟨hs, hcond.1, hcond.2⟩
  · refine Or.inr ⟨?_, ?_⟩
    · rw [StringFilter.length_predicate_eq, decide_eq_false hcond]
    · simp only [Option.some_bind]
      exact if_neg fun hh => hcond ⟨hh.2.1, hh.2.2⟩

/-- Claim C8: under the single-character precondition, the starting- and
ending-character filters always return normally: the internal predicates
index `s[0]` or `s[-1]`, but empty and absent elements are excluded before
the predicate is called, so no out-of-bounds error can occur. -/
theorem claim_C8 (character : String) (h : character.length = 1) :
    ∀ (l : List (Option String)) (cs : Bool),
      (∃ r, StringFilter.filter_by_starting_character l character cs = .ok r) ∧
      (∃ r, StringFilter.filter_by_ending_character l character cs = .ok r) := by
  intro l cs
  constructor
  · obtain ⟨r, hr⟩ := StringFilter.fbp_total l (StringFilter.starts_with_char character cs)
      (StringFilter.starts_with_char_total character cs)
    exact ⟨r, by simp [StringFilter.filter_by_starting_character, h, hr]⟩
  · obtain ⟨r, hr⟩ := StringFilter.fbp_total l (StringFilter.ends_with_char character cs)
      (StringFilter.ends_with_char_total character cs)
    exact ⟨r, by simp [StringFilter.filter_by_ending_character, h, hr]⟩

theorem claim_C8_witness :
    (∃ r, StringFilter.filter_by_starting_character
        [some "Exxon", none, some "", some "x"] "E" false = .ok r) ∧
    (∃ r, StringFilter.filter_by_ending_character
        [some "Exxon", none, some "", some "x"] "E" false = .ok r) :=
  claim_C8 "E" (by decide) [some "Exxon", none, some "", some "x"] false

/-- Claim C9: the legacy `filter_strings_starting_with_e` agrees with the
generic `filter_by_starting_character` at target `'E'` with the default
case-insensitive comparison, on every input list. -/
theorem claim_C9 (l : List (Option String)) :
    filter_strings_starting_with_e l =
      StringFilter.filter_by_starting_character l "E" false := by
  simp only [filter_strings_starting_with_e, StringFilter.filter_by_starting_character,
    if_neg (not_not_intro (by decide : "E".length = 1))]
  exact StringFilter.fbp_congr l _ _ fun s hs => starts_with_e_eq s hs

/-- Claim C10: the AND combinator does not consult its second predicate
when the first returns `False`, and the OR combinator does not consult its
second predicate when the first returns `True` — the stated results hold
for every second predicate, raising ones included. -/
theorem claim_C10 :
    (∀ (P Q : String → Except PyErr Bool) (x : String),
        P x = .ok false → StringFilter.combine_predicates_and P Q x = .ok false) ∧
    (∀ (P Q : String → Except PyErr Bool) (x : String),
        P x = .ok true → StringFilter.combine_predicates_or P Q x = .ok true) := by
  constructor
  · intro P Q x hp
    simp [StringFilter.combine_predicates_and, hp]
  · intro P Q x hp
    simp [StringFilter.combine_predicates_or, hp]

theorem claim_C10_witness :
    StringFilter.combine_predicates_and (fun _ => .ok false)
        (fun _ => .error .indexError) "x" = .ok false ∧
    StringFilter.combine_predicates_or (fun _ => .ok true)
        (fun _ => .error .indexError) "x" = .ok true :=
  ⟨claim_C10.1 (fun _ => .ok false) (fun _ => .error .indexError) "x" rfl,
   claim_C10.2 (fun _ => .ok true) (fun _ => .error .indexError) "x" rfl⟩

end PyModel
